import Mathlib

/-!
Shallow embedding of the request-dispatch layer in
`resources/tmdbhelper/lib/api/request.py`: the connection pool
(`ConnectionPool`), the in-memory response cache (`RequestMemoryCache`),
the per-host rate limiter (`RateLimiter`) and the enhanced dispatch entry
point (`RequestAPI.request`).

Modelling conventions:
* wall-clock instants and durations (Python floats from `time.time()`)
  are rationals `ℚ`; only order and arithmetic on them matter here;
* Python dicts keyed by host become total functions `String → α` updated
  pointwise (`updf`); a `defaultdict` read of an absent key yields the
  default, which the total function already provides;
* a Python function that falls off a bare `return` yields `None`; such
  results are `Option` values;
* the transport (`requests` / the parent `jurialmunkey.reqapi` request)
  is an oracle: the outcome of the pooled send and of the direct send are
  inputs (`Transport`), `none` standing for a raised exception.
-/

/-- An HTTP response object as the dispatch layer sees it: it reads only
`status_code`; the payload stands for everything else. -/
structure Response where
  status_code : Int
  body : String
deriving DecidableEq, Repr

/-- A transport session as the pool logic sees it.  `ConnectionPool` reads
exactly two things from a session object: whether it has a `_closed`
attribute (`hasattr(session, '_closed')`) and, when it does, the value of
that attribute.  A plain `requests.Session()` — which is what
`get_session` constructs (the adapter mounting and default headers it also
performs configure only the transport and are invisible to the pool) —
does not define `_closed`. -/
structure Sess where
  hasClosedAttr : Bool
  closed : Bool
deriving DecidableEq, Repr

/-- The `params` argument of a request: absent (`None`), a dict, or some
other object whose `str()` is used verbatim by `_generate_key`. -/
inductive PyParams where
  | none
  | dict (kvs : List (String × String))
  | raw (s : String)
deriving DecidableEq, Repr

/-- The `headers` argument of a request (never read by the cache key). -/
def PyHeaders := Option (List (String × String))

instance : DecidableEq PyHeaders := by unfold PyHeaders; infer_instance

/-- The settings the dispatch path reads through `get_setting` on every
call (the per-component numeric settings are read once at construction
time and live inside the component states below). -/
structure Settings where
  use_memory_cache : Bool
  enable_rate_limiting : Bool
  use_connection_pool : Bool

/-- Pointwise update of a host-keyed table (a Python dict entry write). -/
def updf {α : Type} (f : String → α) (k : String) (v : α) : String → α :=
  fun k' => if k' = k then v else f k'

/-! ## Cache key derivation (`RequestMemoryCache._generate_key`) -/

/-- `method.upper()`: upper-case each character.  (Implemented over the
character list so that it evaluates by kernel reduction.) -/
def pyUpper (s : String) : String := String.mk (s.data.map Char.toUpper)

/-- Lexicographic order on character lists, the order Python uses to
compare strings (by code point). -/
def charListLT : List Char → List Char → Bool
  | [], [] => false
  | [], _ :: _ => true
  | _ :: _, [] => false
  | a :: as, b :: bs => if a < b then true else if b < a then false else charListLT as bs

/-- Python `a < b` on strings. -/
def strLT (a b : String) : Bool := charListLT a.data b.data

/-- Python truthiness of the `params` argument (`if params:`): `None`, an
empty dict and an empty string are falsy. -/
def PyParams.truthy : PyParams → Bool
  | .none => false
  | .dict kvs => !kvs.isEmpty
  | .raw s => !(s == "")

/-- Ascending lexicographic comparison of `(key, value)` pairs, the order
`sorted(params.items())` uses. -/
def pairLE (a b : String × String) : Bool :=
  strLT a.1 b.1 || (a.1 == b.1 && !(strLT b.2 a.2))

/-- Stable insertion of a pair into a sorted list. -/
def insertPair (kv : String × String) : List (String × String) → List (String × String)
  | [] => [kv]
  | e :: rest => if pairLE kv e then kv :: e :: rest else e :: insertPair kv rest

/-- `sorted(params.items())`: stable ascending sort of the pairs. -/
def sortPairs : List (String × String) → List (String × String)
  | [] => []
  | kv :: rest => insertPair kv (sortPairs rest)

/-- The serialized `params` component of the key: a dict becomes
`"&".join(f"k=v" for sorted items)`, anything else its `str()`. -/
def params_str : PyParams → String
  | .dict kvs => String.intercalate "&" ((sortPairs kvs).map (fun kv => kv.1 ++ "=" ++ kv.2))
  | .raw s => s
  | .none => ""

/-- `_generate_key(url, method, params, headers)`.  The source joins
`[method.upper(), url]` plus, when `params` is truthy, `"params:" ++
params_str`, with `"|"`, then md5-hashes the joined string and keeps 16
hex digits.  The hash is a fixed deterministic post-map of the joined
string, so we take the joined string itself as the fingerprint: every
equal-fingerprint fact proved here transfers to the hashed key.  Note
that the `headers` parameter is accepted but never used. -/
def generate_key (url method : String) (params : PyParams) (headers : PyHeaders) : String :=
  String.intercalate "|"
    (if params.truthy
      then [pyUpper method, url, "params:" ++ params_str params]
      else [pyUpper method, url])

/-! ## `RequestMemoryCache` -/

/-- State of the memory cache singleton: the capacity and default TTL read
from settings at construction, the `OrderedDict` of responses (front =
oldest, i.e. first to be evicted) and the timestamp dict. -/
structure MCState where
  max_size : ℕ
  default_ttl : ℚ
  cache : List (String × Response)
  timestamps : String → Option ℚ

/-- `max_age = ttl or self.default_ttl`: a falsy override (absent or zero)
falls back to the default TTL. -/
def max_age (ttl : Option ℚ) (default_ttl : ℚ) : ℚ :=
  match ttl with
  | Option.none => default_ttl
  | some t => if t = 0 then default_ttl else t

/-- `OrderedDict.move_to_end(key)`: the entry for `key` moves to the back
(most recently used); with the unique keys the dict guarantees, this is
filter-out plus append. -/
def move_to_end (key : String) (l : List (String × Response)) : List (String × Response) :=
  match List.lookup key l with
  | some v => (l.filter fun e => !(e.1 == key)) ++ [(key, v)]
  | Option.none => l

/-- `_remove_key`: pop `key` from both the cache and the timestamp dict. -/
def remove_key (st : MCState) (key : String) : MCState :=
  { st with
    cache := st.cache.filter fun e => !(e.1 == key)
    timestamps := updf st.timestamps key Option.none }

/-- The eviction loop of `set`: while the cache holds at least `max_size`
entries, `_remove_key(next(iter(cache)))` drops the oldest entry (and its
timestamp).  When `max_size = 0` the source would exhaust the dict and
then raise `StopIteration` on the empty iterator; that case is never
reached below (every theorem touching `set` has `1 ≤ max_size`). -/
def evict_loop (max_size : ℕ) (ts : String → Option ℚ) :
    List (String × Response) → List (String × Response) × (String → Option ℚ)
  | [] => ([], ts)
  | e :: rest =>
    if max_size ≤ rest.length + 1 then
      evict_loop max_size (updf ts e.1 Option.none) rest
    else (e :: rest, ts)

/-- `RequestMemoryCache.get(url, method, params, headers, ttl)`.
Returns the cached response and the successor state.  The
`st.timestamps key = none` inner case is unreachable for states built by
`set`/`remove_key`, which keep the two dicts synchronized (the source
would raise `KeyError` there). -/
def RequestMemoryCache.get (s : Settings) (st : MCState) (now : ℚ) (url method : String)
    (params : PyParams) (headers : PyHeaders) (ttl : Option ℚ) : Option Response × MCState :=
  if !s.use_memory_cache then (Option.none, st)
  else
    match List.lookup (generate_key url method params headers) st.cache with
    | Option.none => (Option.none, st)
    | some v =>
      match st.timestamps (generate_key url method params headers) with
      | Option.none => (Option.none, st)
      | some t0 =>
        if now - t0 > max_age ttl st.default_ttl then
          (Option.none, remove_key st (generate_key url method params headers))
        else
          (some v, { st with cache := move_to_end (generate_key url method params headers) st.cache })

/-- `RequestMemoryCache.set(url, method, response_data, params, headers)`:
evict oldest entries while at capacity, then write the entry (an existing
key keeps its position in the `OrderedDict`, a new key is appended) and
stamp it with the current time. -/
def RequestMemoryCache.set (s : Settings) (st : MCState) (now : ℚ) (url method : String)
    (response_data : Response) (params : PyParams) (headers : PyHeaders) : MCState :=
  if !s.use_memory_cache then st
  else
    match evict_loop st.max_size st.timestamps st.cache with
    | (cache2, ts2) =>
      { st with
        cache :=
          match List.lookup (generate_key url method params headers) cache2 with
          | some _ => cache2.map fun e =>
              if e.1 == generate_key url method params headers
              then (generate_key url method params headers, response_data) else e
          | Option.none => cache2 ++ [(generate_key url method params headers, response_data)]
        timestamps := updf ts2 (generate_key url method params headers) (some now) }

/-! ## `RateLimiter` -/

/-- State of the rate limiter singleton: the sustained rate and burst
limit read from settings at construction, and the per-host timestamp
lists (appended at the back). -/
structure RLState where
  requests_per_second : ℚ
  burst_limit : ℤ
  request_times : String → List ℚ

/-- `min(...)` over a list of timestamps; the source calls it only on a
nonempty list (the `[]` case is unreachable there — Python `min` would
raise on it). -/
def listMin : List ℚ → ℚ
  | [] => 0
  | t :: ts => ts.foldl min t

/-- `RateLimiter.wait_if_needed(host)`.  At `requests_per_second ≤ 0` the
source executes a bare `return`, i.e. yields `None` (first component
`none`) without touching the timestamp lists.  Otherwise it prunes the
host list to the trailing 60 seconds and returns `1.0` at the burst
ceiling, `max(1.0 - (now - oldest_in_window), 0.1)` at the sustained
ceiling, and `0` below both. -/
def wait_if_needed (rl : RLState) (host : String) (now : ℚ) : Option ℚ × RLState :=
  if rl.requests_per_second ≤ 0 then (Option.none, rl)
  else
    match (rl.request_times host).filter (fun t => decide (now - 60 < t)) with
    | times =>
      if rl.burst_limit ≤ (times.length : ℤ) then
        (some 1, { rl with request_times := updf rl.request_times host times })
      else
        if rl.requests_per_second ≤ ((times.filter (fun t => decide (now - 1 < t))).length : ℚ) then
          (some (max (1 - (now - listMin (times.filter (fun t => decide (now - 1 < t))))) (1/10)),
           { rl with request_times := updf rl.request_times host times })
        else
          (some 0, { rl with request_times := updf rl.request_times host times })

/-- `RateLimiter.record_request(host)`: append the current time. -/
def record_request (rl : RLState) (host : String) (now : ℚ) : RLState :=
  { rl with request_times := updf rl.request_times host ((rl.request_times host) ++ [now]) }

/-! ## `ConnectionPool` -/

/-- State of the pool singleton: the per-host maximum read from settings
at construction, the idle lists (head = most recently returned, since the
source appends and pops at the back of a Python list) and the per-host
active-connection counters (a `defaultdict(int)`, only ever incremented). -/
structure PoolState where
  max_connections : ℕ
  pools : String → List Sess
  active : String → ℕ

/-- The session `get_session` constructs: `requests.Session()` plus
transport configuration; it never defines a `_closed` attribute. -/
def new_session : Sess := ⟨false, false⟩

/-- `ConnectionPool.get_session(host)`: pop an idle session and return it
if it passes the `hasattr(session, '_closed') and not session._closed`
check (a popped session failing the check is dropped); otherwise create a
fresh session while the active counter is below the maximum, incrementing
the counter; otherwise return `None`.  (Session construction cannot fail
in the model; the `except` branch of the source also just returns
`None`.) -/
def get_session (p : PoolState) (host : String) : Option Sess × PoolState :=
  match p.pools host with
  | sess :: rest =>
    if sess.hasClosedAttr && !sess.closed then
      (some sess, { p with pools := updf p.pools host rest })
    else
      if p.active host < p.max_connections then
        (some new_session,
         { p with pools := updf p.pools host rest,
                  active := updf p.active host (p.active host + 1) })
      else (Option.none, { p with pools := updf p.pools host rest })
  | [] =>
    if p.active host < p.max_connections then
      (some new_session, { p with active := updf p.active host (p.active host + 1) })
    else (Option.none, p)

/-- `ConnectionPool.return_session(host, session)`: append the session to
the idle list when the list is below the maximum AND the session has a
`_closed` attribute that is `False`; otherwise `session.close()` — the
session is discarded and the pool state (in particular the active
counter) is untouched. -/
def return_session (p : PoolState) (host : String) (sess : Sess) : PoolState :=
  if decide ((p.pools host).length < p.max_connections)
      && sess.hasClosedAttr && !sess.closed then
    { p with pools := updf p.pools host (sess :: p.pools host) }
  else p

/-- A pool interaction, for stating trace invariants: one `get_session`
call or one `return_session` call. -/
inductive PoolOp where
  | acq (host : String)
  | rel (host : String) (sess : Sess)
deriving DecidableEq

/-- The pool-state effect of one interaction. -/
def applyOp (p : PoolState) : PoolOp → PoolState
  | .acq h => (get_session p h).2
  | .rel h s => return_session p h s

/-- The pool-state effect of a sequence of interactions. -/
def runOps (p : PoolState) (ops : List PoolOp) : PoolState := ops.foldl applyOp p

/-- Holds when an interaction, if it is a `return_session`, hands back a
session without a `_closed` attribute — which every session this pool
creates is. -/
def relOkB : PoolOp → Bool
  | .rel _ s => !s.hasClosedAttr
  | _ => true

/-- A freshly initialized pool: empty idle lists, zero counters. -/
def freshPool (m : ℕ) : PoolState := ⟨m, fun _ => [], fun _ => 0⟩

/-! ## `RequestAPI.request` (the dispatcher) -/

/-- The three singleton states the enhanced request path touches. -/
structure DState where
  pool : PoolState
  mc : MCState
  rl : RLState

/-- The arguments of one `request` call that the enhanced path reads:
`url`, `kwargs.get('method', 'GET')`, `kwargs.get('stream', False)`,
`kwargs.get('params')` and `kwargs.get('headers')`.  `ttlOverride` stands
for a per-request TTL carried in `kwargs`: the dispatch code never reads
such a value (it would only be forwarded, unread, to the transport
call). -/
structure Req where
  url : String
  method : String
  stream : Bool
  params : PyParams
  headers : PyHeaders
  ttlOverride : Option ℚ

/-- The transport oracle for one call: the outcome of a pooled send and
of the direct (parent-class) send, `none` standing for a raised
exception. -/
structure Transport where
  pooled : Option Response
  direct : Option Response

/-- Outcome of one `request` call: a response, or an uncaught exception
propagating out of the method. -/
inductive DOut where
  | ok (r : Response)
  | crash
deriving DecidableEq, Repr

/-- Observable side activity of one call: how many network sends were
attempted (pooled and direct each count one) and how long the call slept
on the rate limiter. -/
structure Log where
  sends : ℕ
  slept : ℚ
deriving DecidableEq, Repr

/-- `urlparse(url).netloc` for the `scheme://host/path` URLs this layer
sees: the text between the first `//` and the next `/`.  The dispatcher
uses the netloc only as an opaque per-host partition key. -/
def netlocChars : List Char → List Char
  | [] => []
  | [_] => []
  | c1 :: c2 :: rest =>
    if c1 = '/' && c2 = '/' then rest.takeWhile (fun c => c != '/')
    else netlocChars (c2 :: rest)

/-- See the comment on `netlocChars` above. -/
def netlocOf (url : String) : String := String.mk (netlocChars url.data)

/-- The fallback tail of `request`: `super().request(...)` followed, on
success, by `record_request` when rate limiting is enabled (an exception
from the parent call propagates before the recording line). -/
def direct_send (s : Settings) (st : DState) (now : ℚ) (req : Req) (tr : Transport)
    (log : Log) : DOut × DState × Log :=
  match tr.direct with
  | some r =>
    (DOut.ok r,
     ⟨st.pool, st.mc,
      if s.enable_rate_limiting then record_request st.rl (netlocOf req.url) now else st.rl⟩,
     ⟨log.sends + 1, log.slept⟩)
  | Option.none => (DOut.crash, st, ⟨log.sends + 1, log.slept⟩)

/-- The pooled-send section of `request`: acquire a session; on a pooled
response, return the session, record the request, cache a successful
non-streaming GET response and return it; on a pooled exception, return
the session the same way and fall through to `direct_send`; with no
session (or pooling disabled) go straight to `direct_send`. -/
def pooled_phase (s : Settings) (st : DState) (now : ℚ) (req : Req) (tr : Transport)
    (slept : ℚ) : DOut × DState × Log :=
  if s.use_connection_pool then
    match get_session st.pool (netlocOf req.url) with
    | (some sess, pool2) =>
      match tr.pooled with
      | some resp =>
        (DOut.ok resp,
         ⟨return_session pool2 (netlocOf req.url) sess,
          (if pyUpper req.method == "GET" && resp.status_code == 200
              && !req.stream && s.use_memory_cache
           then RequestMemoryCache.set s st.mc now req.url (pyUpper req.method) resp
                  req.params req.headers
           else st.mc),
          (if s.enable_rate_limiting then record_request st.rl (netlocOf req.url) now
           else st.rl)⟩,
         ⟨1, slept⟩)
      | Option.none =>
        direct_send s ⟨return_session pool2 (netlocOf req.url) sess, st.mc, st.rl⟩
          now req tr ⟨1, slept⟩
    | (Option.none, pool2) => direct_send s ⟨pool2, st.mc, st.rl⟩ now req tr ⟨0, slept⟩
  else direct_send s st now req tr ⟨0, slept⟩

/-- The rate-limiting section of `request`: when enabled, ask
`wait_if_needed`; a `None` answer (sustained rate configured `≤ 0`) makes
the `if wait_time > 0:` comparison raise `TypeError`, crashing the call;
a positive answer sleeps for that long (later timestamps shift by the
sleep), then the pooled phase runs. -/
def afterCacheMiss (s : Settings) (st : DState) (now : ℚ) (req : Req) (tr : Transport) :
    DOut × DState × Log :=
  if s.enable_rate_limiting then
    match wait_if_needed st.rl (netlocOf req.url) now with
    | (Option.none, rl2) => (DOut.crash, ⟨st.pool, st.mc, rl2⟩, ⟨0, 0⟩)
    | (some w, rl2) =>
      if 0 < w then pooled_phase s ⟨st.pool, st.mc, rl2⟩ (now + w) req tr w
      else pooled_phase s ⟨st.pool, st.mc, rl2⟩ now req tr 0
  else pooled_phase s st now req tr 0

/-- `RequestAPI.request` (the `enhance_performance`-wrapped method).  An
empty (falsy) `url` short-circuits to the parent call with no recording.
Otherwise: memory-cache lookup for non-streaming GETs (returning
immediately on a hit), then rate limiting, then the pooled attempt with
direct-send fallback. -/
def dispatch (s : Settings) (st : DState) (now : ℚ) (req : Req) (tr : Transport) :
    DOut × DState × Log :=
  if req.url = "" then
    match tr.direct with
    | some r => (DOut.ok r, st, ⟨1, 0⟩)
    | Option.none => (DOut.crash, st, ⟨1, 0⟩)
  else
    if pyUpper req.method == "GET" && !req.stream && s.use_memory_cache then
      match RequestMemoryCache.get s st.mc now req.url (pyUpper req.method)
              req.params req.headers Option.none with
      | (some r, mc2) => (DOut.ok r, ⟨st.pool, mc2, st.rl⟩, ⟨0, 0⟩)
      | (Option.none, mc2) => afterCacheMiss s ⟨st.pool, mc2, st.rl⟩ now req tr
    else afterCacheMiss s st now req tr

/-! ## Concrete scenario states used by witnesses and counterexamples -/

/-- A 200 response used by the concrete scenarios. -/
def r200 : Response := ⟨200, "ok"⟩

/-- An empty memory cache with the default capacity 500 and TTL 300. -/
def mcEmpty : MCState := ⟨500, 300, [], fun _ => Option.none⟩

/-- A fresh rate limiter with the default rate 5/s and burst limit 15. -/
def rlFresh : RLState := ⟨5, 15, fun _ => []⟩

/-- The fingerprint of a parameterless GET for `url` (the form the LRU
scenario uses). -/
def keyOf (u : String) : String := generate_key u "GET" PyParams.none Option.none

/-- The LRU scenario setup: one `set` per URL in order, all at time 0 and
all storing the same response. -/
def foldSet (s : Settings) (r : Response) (us : List String) (st : MCState) : MCState :=
  us.foldl (fun acc u =>
    RequestMemoryCache.set s acc 0 u "GET" r PyParams.none Option.none) st

/-! ## Claim theorems -/

/-- Claim C3 (code bug), the code evaluated at the failing input: with the
sustained rate configured to zero, `wait_if_needed` executes the bare
`return` and yields `None` instead of a duration — even though the pruned
60-second count (0) is below the burst limit and the 1-second count (0)
is below the sustained rate, where the claim promises zero; the
dispatcher then evaluates `None > 0`, which raises `TypeError` and
crashes the call. -/
theorem c3_zero_rate_returns_none_eval :
    (wait_if_needed ⟨0, 15, fun _ => []⟩ "h" 100).1 = Option.none ∧
    (dispatch ⟨false, true, true⟩ ⟨freshPool 8, mcEmpty, ⟨0, 15, fun _ => []⟩⟩ 0
        ⟨"http://h/p", "GET", false, PyParams.none, Option.none, Option.none⟩
        ⟨some r200, some r200⟩).1 = DOut.crash := by
  with_unfolding_all decide

/-- Claim C4 (code bug), the code evaluated at the failing input: with
`max_connections = 1`, the first `get_session` succeeds (with a fresh
`requests.Session`, which carries no `_closed` attribute), the second
returns `None`, and after `return_session` hands the session back the
next `get_session` STILL returns `None`: the returned session is closed
rather than pooled and the active counter is never decremented, so a
release does not make acquisition possible again. -/
theorem c4_release_does_not_reenable_eval :
    (get_session (freshPool 1) "h").1 = some new_session ∧
    (get_session ((get_session (freshPool 1) "h").2) "h").1 = Option.none ∧
    (return_session ((get_session (freshPool 1) "h").2) "h" new_session).active "h" = 1 ∧
    (get_session (return_session ((get_session (freshPool 1) "h").2) "h" new_session) "h").1
      = Option.none := by
  decide

/-- Claim C1 (code bug), the code evaluated at the failing input: a
pooled GET to host `h` (fresh pool, `max_connections = 1`) whose pooled
send raises.  The dispatcher falls through to the direct send (the call
returns the direct response and two sends were attempted) and the session
is not returned to the idle list — but `return_session` is the same call
as on success: it closes the session and never decrements the active
counter, which stays at 1 instead of the decremented 0 the claim
describes, leaving the pool unusable for the host. -/
theorem c1_pooled_failure_no_decrement_eval :
    (dispatch ⟨false, false, true⟩ ⟨freshPool 1, mcEmpty, rlFresh⟩ 0
        ⟨"http://h/p", "GET", false, PyParams.none, Option.none, Option.none⟩
        ⟨Option.none, some r200⟩).1 = DOut.ok r200 ∧
    (dispatch ⟨false, false, true⟩ ⟨freshPool 1, mcEmpty, rlFresh⟩ 0
        ⟨"http://h/p", "GET", false, PyParams.none, Option.none, Option.none⟩
        ⟨Option.none, some r200⟩).2.2.sends = 2 ∧
    (dispatch ⟨false, false, true⟩ ⟨freshPool 1, mcEmpty, rlFresh⟩ 0
        ⟨"http://h/p", "GET", false, PyParams.none, Option.none, Option.none⟩
        ⟨Option.none, some r200⟩).2.1.pool.active "h" = 1 ∧
    (dispatch ⟨false, false, true⟩ ⟨freshPool 1, mcEmpty, rlFresh⟩ 0
        ⟨"http://h/p", "GET", false, PyParams.none, Option.none, Option.none⟩
        ⟨Option.none, some r200⟩).2.1.pool.pools "h" = [] ∧
    (get_session (dispatch ⟨false, false, true⟩ ⟨freshPool 1, mcEmpty, rlFresh⟩ 0
        ⟨"http://h/p", "GET", false, PyParams.none, Option.none, Option.none⟩
        ⟨Option.none, some r200⟩).2.1.pool "h").1 = Option.none := by
  with_unfolding_all decide

/-! ## Association-list lemmas -/

theorem lookup_filter_out (k : String) (l : List (String × Response)) :
    List.lookup k (l.filter fun e => !(e.1 == k)) = Option.none := by
  induction l with
  | nil => rfl
  | cons e rest ih =>
    by_cases h : e.1 = k
    · simp [List.filter, h, ih]
    · have hb : (e.1 == k) = false := beq_eq_false_iff_ne.mpr h
      have hb2 : (k == e.1) = false := beq_eq_false_iff_ne.mpr (Ne.symm h)
      simp [List.filter, hb, List.lookup, hb2, ih]

theorem lookup_cons_self (k : String) (v : Response) (l : List (String × Response)) :
    List.lookup k ((k, v) :: l) = some v := by
  simp [List.lookup]

theorem lookup_cons_ne (k a : String) (b : Response) (l : List (String × Response))
    (h : k ≠ a) : List.lookup k ((a, b) :: l) = List.lookup k l := by
  simp [List.lookup, beq_eq_false_iff_ne.mpr h]

theorem lookup_append_right (k : String) (v : Response) (l : List (String × Response))
    (h : List.lookup k l = Option.none) :
    List.lookup k (l ++ [(k, v)]) = some v := by
  induction l with
  | nil => simp [List.lookup]
  | cons e rest ih =>
    obtain ⟨a, b⟩ := e
    by_cases hk : k = a
    · subst hk
      rw [lookup_cons_self] at h
      exact absurd h (by simp)
    · rw [lookup_cons_ne k a b rest hk] at h
      rw [List.cons_append, lookup_cons_ne k a b _ hk]
      exact ih h

theorem lookup_replace (k : String) (r : Response) (l : List (String × Response)) (v : Response)
    (h : List.lookup k l = some v) :
    List.lookup k (l.map fun e => if e.1 == k then (k, r) else e) = some r := by
  induction l with
  | nil => simp [List.lookup] at h
  | cons e rest ih =>
    obtain ⟨a, b⟩ := e
    by_cases hk : a = k
    · subst hk
      simp only [List.map_cons]
      rw [if_pos (by simp)]
      exact lookup_cons_self a r _
    · have hb : (a == k) = false := beq_eq_false_iff_ne.mpr hk
      rw [lookup_cons_ne k a b rest (Ne.symm hk)] at h
      simp only [List.map_cons]
      rw [if_neg (by simp [hb])]
      rw [lookup_cons_ne k a b _ (Ne.symm hk)]
      exact ih h

theorem lookup_none_of_not_mem (k : String) (l : List (String × Response))
    (h : k ∉ l.map Prod.fst) : List.lookup k l = Option.none := by
  induction l with
  | nil => rfl
  | cons e rest ih =>
    obtain ⟨a, b⟩ := e
    simp only [List.map_cons, List.mem_cons, not_or] at h
    rw [lookup_cons_ne k a b rest h.1]
    exact ih h.2

/-- Claim C2 counterexample: an entry inserted at `t0 = 0` with effective
TTL `T = 300`, looked up at exactly `t = t0 + T = 300`, is returned as a
HIT (the source expires only when `now - t0 > max_age`, strictly), while
the claim requires a miss at `t = t0 + T`. -/
theorem c2_boundary_hit_counterexample :
    (RequestMemoryCache.get ⟨true, true, true⟩
        ⟨500, 300, [("GET|u", r200)], fun k => if k = "GET|u" then some 0 else Option.none⟩
        300 "u" "GET" PyParams.none Option.none Option.none).1 = some r200 := by
  with_unfolding_all decide

/-- Claim C2 as amended: an entry whose age strictly exceeds the
effective TTL used by the lookup (`max_age`: the per-request override
when truthy, else the global default) is treated as a miss — `get`
removes it from both dicts and returns `None`.  (At age exactly equal to
the TTL the entry is still a hit, see the counterexample.) -/
theorem c2_expiry_strict (s : Settings) (st : MCState) (now t0 : ℚ) (url method : String)
    (params : PyParams) (headers : PyHeaders) (ttl : Option ℚ) (v : Response)
    (hmem : s.use_memory_cache = true)
    (hv : List.lookup (generate_key url method params headers) st.cache = some v)
    (ht : st.timestamps (generate_key url method params headers) = some t0)
    (hexp : now - t0 > max_age ttl st.default_ttl) :
    (RequestMemoryCache.get s st now url method params headers ttl).1 = Option.none ∧
    List.lookup (generate_key url method params headers)
      ((RequestMemoryCache.get s st now url method params headers ttl).2).cache
      = Option.none ∧
    ((RequestMemoryCache.get s st now url method params headers ttl).2).timestamps
      (generate_key url method params headers) = Option.none := by
  have hget : RequestMemoryCache.get s st now url method params headers ttl
      = (Option.none, remove_key st (generate_key url method params headers)) := by
    rw [RequestMemoryCache.get, hmem]
    simp only [Bool.not_true, Bool.false_eq_true, if_false]
    rw [hv, ht]
    simp only [if_pos hexp]
  rw [hget]
  refine ⟨rfl, ?_, ?_⟩
  · exact lookup_filter_out _ _
  · simp [remove_key, updf]

/-- Witness for `c2_expiry_strict` at a concrete input: entry inserted at
0, default TTL 300, lookup at 301. -/
theorem c2_expiry_strict_witness :
    (RequestMemoryCache.get ⟨true, true, true⟩
        ⟨500, 300, [("GET|u", r200)], fun k => if k = "GET|u" then some 0 else Option.none⟩
        301 "u" "GET" PyParams.none Option.none Option.none).1 = Option.none ∧
    List.lookup (generate_key "u" "GET" PyParams.none Option.none)
      ((RequestMemoryCache.get ⟨true, true, true⟩
        ⟨500, 300, [("GET|u", r200)], fun k => if k = "GET|u" then some 0 else Option.none⟩
        301 "u" "GET" PyParams.none Option.none Option.none).2).cache = Option.none ∧
    ((RequestMemoryCache.get ⟨true, true, true⟩
        ⟨500, 300, [("GET|u", r200)], fun k => if k = "GET|u" then some 0 else Option.none⟩
        301 "u" "GET" PyParams.none Option.none Option.none).2).timestamps
      (generate_key "u" "GET" PyParams.none Option.none) = Option.none :=
  c2_expiry_strict ⟨true, true, true⟩
    ⟨500, 300, [("GET|u", r200)], fun k => if k = "GET|u" then some 0 else Option.none⟩
    301 0 "u" "GET" PyParams.none Option.none Option.none r200
    rfl (by with_unfolding_all decide) (by with_unfolding_all decide)
    (by with_unfolding_all decide)

/-- Claim C6: with rate limiting effective (positive sustained rate, as
the pruning the claim quantifies over presupposes), whenever the pruned
trailing-60-second timestamp count for the host has reached the burst
limit, `wait_if_needed` returns the fixed cooldown `1.0` — a nonzero
duration, so the next request on that host sees a nonzero wait. -/
theorem c6_burst_cooldown (rl : RLState) (host : String) (now : ℚ)
    (hrps : 0 < rl.requests_per_second)
    (hburst : rl.burst_limit ≤
      (((rl.request_times host).filter (fun t => decide (now - 60 < t))).length : ℤ)) :
    (wait_if_needed rl host now).1 = some 1 := by
  rw [wait_if_needed, if_neg (not_le.mpr hrps)]
  simp only [if_pos hburst]

/-- Witness for `c6_burst_cooldown`: burst limit 2, two timestamps inside
the 60-second horizon at lookup time 12. -/
theorem c6_burst_cooldown_witness :
    (wait_if_needed ⟨5, 2, fun _ => [10, 11]⟩ "h" 12).1 = some 1 :=
  c6_burst_cooldown ⟨5, 2, fun _ => [10, 11]⟩ "h" 12
    (by norm_num) (by with_unfolding_all decide)

/-- Claim C8 counterexample: a request carrying the explicit TTL override
10 whose cached entry is 20 time units old (older than the override,
younger than the default TTL 300).  Had the lookup used the override, the
entry would be a miss — the cache itself, asked with `ttl = 10`, says so
(third conjunct) — yet `dispatch` returns the stale cached payload
without attempting any send: its lookup passed no TTL, so the default
TTL was used. -/
theorem c8_override_ignored_counterexample :
    (dispatch ⟨true, false, false⟩
        ⟨freshPool 8,
         ⟨500, 300, [("GET|http://h/p", r200)],
          fun k => if k = "GET|http://h/p" then some 0 else Option.none⟩,
         rlFresh⟩ 20
        ⟨"http://h/p", "GET", false, PyParams.none, Option.none, some 10⟩
        ⟨Option.none, Option.none⟩).1 = DOut.ok r200 ∧
    (dispatch ⟨true, false, false⟩
        ⟨freshPool 8,
         ⟨500, 300, [("GET|http://h/p", r200)],
          fun k => if k = "GET|http://h/p" then some 0 else Option.none⟩,
         rlFresh⟩ 20
        ⟨"http://h/p", "GET", false, PyParams.none, Option.none, some 10⟩
        ⟨Option.none, Option.none⟩).2.2.sends = 0 ∧
    (RequestMemoryCache.get ⟨true, false, false⟩
        ⟨500, 300, [("GET|http://h/p", r200)],
         fun k => if k = "GET|http://h/p" then some 0 else Option.none⟩
        20 "http://h/p" "GET" PyParams.none Option.none (some 10)).1 = Option.none := by
  with_unfolding_all decide

/-- Claim C8 as amended: the cache lookup `dispatch` performs never uses
a per-request TTL override — the entire call is independent of the
`ttlOverride` the request carries (the lookup passes no TTL, so
`max_age` falls back to the global default). -/
theorem c8_lookup_ignores_ttl_override (s : Settings) (st : DState) (now : ℚ) (req : Req)
    (tr : Transport) (o : Option ℚ) :
    dispatch s st now req tr = dispatch s st now { req with ttlOverride := o } tr := by
  cases req
  rfl

/-- After `set`, the entry for the request fingerprint is present with
the stored response and the current timestamp, whatever the prior cache
contents; capacity and default TTL are unchanged. -/
theorem set_lookup (s : Settings) (st : MCState) (now : ℚ) (url method : String)
    (r : Response) (params : PyParams) (headers : PyHeaders)
    (hmem : s.use_memory_cache = true) :
    List.lookup (generate_key url method params headers)
      (RequestMemoryCache.set s st now url method r params headers).cache = some r ∧
    (RequestMemoryCache.set s st now url method r params headers).timestamps
      (generate_key url method params headers) = some now ∧
    (RequestMemoryCache.set s st now url method r params headers).default_ttl
      = st.default_ttl ∧
    (RequestMemoryCache.set s st now url method r params headers).max_size = st.max_size := by
  rw [RequestMemoryCache.set, hmem]
  simp only [Bool.not_true, Bool.false_eq_true, if_false]
  rcases hev : evict_loop st.max_size st.timestamps st.cache with ⟨cache2, ts2⟩
  cases hl : List.lookup (generate_key url method params headers) cache2 with
  | none =>
    simp only [hl]
    exact ⟨lookup_append_right _ _ _ hl, by simp [updf], by simp, by simp⟩
  | some v =>
    simp only [hl]
    exact ⟨lookup_replace _ _ _ v hl, by simp [updf], by simp, by simp⟩

/-- A `get` whose entry is present and not older than the effective TTL
returns the stored response. -/
theorem get_hit (s : Settings) (st : MCState) (now : ℚ) (url method : String)
    (params : PyParams) (headers : PyHeaders) (ttl : Option ℚ) (t0 : ℚ) (v : Response)
    (hmem : s.use_memory_cache = true)
    (hv : List.lookup (generate_key url method params headers) st.cache = some v)
    (ht : st.timestamps (generate_key url method params headers) = some t0)
    (hfresh : ¬(now - t0 > max_age ttl st.default_ttl)) :
    (RequestMemoryCache.get s st now url method params headers ttl).1 = some v := by
  rw [RequestMemoryCache.get, hmem]
  simp only [Bool.not_true, Bool.false_eq_true, if_false]
  rw [hv, ht]
  simp only [if_neg hfresh]

/-- Claim C10: the cache fingerprint is independent of the request
headers — `_generate_key` never reads its `headers` parameter — and, end
to end, a response stored under one headers value is returned as a cache
hit to a lookup that is identical except for its headers (here within
the default TTL; `1 ≤ max_size` keeps the scenario inside the region
where the eviction loop of the source is defined). -/
theorem c10_headers_not_in_fingerprint :
    (∀ (url method : String) (params : PyParams) (h1 h2 : PyHeaders),
      generate_key url method params h1 = generate_key url method params h2) ∧
    (∀ (s : Settings) (st : MCState) (now now2 : ℚ) (url method : String)
      (params : PyParams) (h1 h2 : PyHeaders) (r : Response),
      s.use_memory_cache = true → 1 ≤ st.max_size → now2 - now ≤ st.default_ttl →
      (RequestMemoryCache.get s (RequestMemoryCache.set s st now url method r params h1)
          now2 url method params h2 Option.none).1 = some r) := by
  constructor
  · intro url method params h1 h2
    rfl
  · intro s st now now2 url method params h1 h2 r hmem hcap httl
    have hk : generate_key url method params h2 = generate_key url method params h1 := rfl
    have hset := set_lookup s st now url method r params h1 hmem
    refine get_hit s _ now2 url method params h2 Option.none now r hmem ?_ ?_ ?_
    · rw [hk]
      exact hset.1
    · rw [hk]
      exact hset.2.1
    · have hd : max_age Option.none
          (RequestMemoryCache.set s st now url method r params h1).default_ttl
          = st.default_ttl := by
        rw [show max_age Option.none
            (RequestMemoryCache.set s st now url method r params h1).default_ttl
            = (RequestMemoryCache.set s st now url method r params h1).default_ttl from rfl]
        exact hset.2.2.1
      rw [hd]
      exact not_lt.mpr httl

/-- Witness for the second part of `c10_headers_not_in_fingerprint`:
store with one Authorization header, hit with another. -/
theorem c10_headers_not_in_fingerprint_witness :
    (RequestMemoryCache.get ⟨true, true, true⟩
        (RequestMemoryCache.set ⟨true, true, true⟩ mcEmpty 0 "u" "GET" r200 PyParams.none
          (some [("Authorization", "token-a")]))
        5 "u" "GET" PyParams.none (some [("Authorization", "token-b")]) Option.none).1
      = some r200 :=
  c10_headers_not_in_fingerprint.2 ⟨true, true, true⟩ mcEmpty 0 5 "u" "GET" PyParams.none
    (some [("Authorization", "token-a")]) (some [("Authorization", "token-b")]) r200
    rfl (by norm_num [mcEmpty]) (by norm_num [mcEmpty])

/-- Claim C7: a cacheable request (GET, non-streaming, caching enabled)
whose fingerprint hits the memory cache returns the cached payload
immediately: the call performs zero network sends, sleeps for zero time,
and leaves the rate limiter (hence every per-host recorded-timestamp
list) and the connection pool untouched; only the cache state advances
(LRU promotion). -/
theorem c7_cache_hit_frame (s : Settings) (st : DState) (now : ℚ) (req : Req)
    (tr : Transport) (r : Response) (mc2 : MCState)
    (hurl : ¬(req.url = ""))
    (hm : pyUpper req.method = "GET")
    (hstream : req.stream = false)
    (hmem : s.use_memory_cache = true)
    (hget : RequestMemoryCache.get s st.mc now req.url "GET" req.params req.headers
      Option.none = (some r, mc2)) :
    dispatch s st now req tr = (DOut.ok r, ⟨st.pool, mc2, st.rl⟩, ⟨0, 0⟩) := by
  rw [dispatch, if_neg hurl]
  simp only [hm, hstream, hmem, Bool.not_false, Bool.and_true, Bool.and_self, beq_self_eq_true,
    if_true]
  rw [hget]

/-- Witness for `c7_cache_hit_frame`: a concrete hit returns the cached
response with zero sends, zero sleep, and unchanged pool and limiter. -/
theorem c7_cache_hit_frame_witness :
    dispatch ⟨true, true, true⟩
        ⟨freshPool 8,
         ⟨500, 300, [("GET|http://h/p", r200)],
          fun k => if k = "GET|http://h/p" then some 0 else Option.none⟩,
         rlFresh⟩ 0
        ⟨"http://h/p", "GET", false, PyParams.none, Option.none, Option.none⟩
        ⟨Option.none, Option.none⟩
      = (DOut.ok r200,
         ⟨freshPool 8,
          ⟨500, 300, [("GET|http://h/p", r200)],
           fun k => if k = "GET|http://h/p" then some 0 else Option.none⟩,
          rlFresh⟩,
         ⟨0, 0⟩) :=
  c7_cache_hit_frame ⟨true, true, true⟩
    ⟨freshPool 8,
     ⟨500, 300, [("GET|http://h/p", r200)],
      fun k => if k = "GET|http://h/p" then some 0 else Option.none⟩,
     rlFresh⟩ 0
    ⟨"http://h/p", "GET", false, PyParams.none, Option.none, Option.none⟩
    ⟨Option.none, Option.none⟩ r200
    ⟨500, 300, [("GET|http://h/p", r200)],
     fun k => if k = "GET|http://h/p" then some 0 else Option.none⟩
    (by with_unfolding_all decide) (by with_unfolding_all decide) rfl rfl
    (by with_unfolding_all rfl)

/-! ## Pool invariants -/

theorem return_session_active (p : PoolState) (h : String) (sess : Sess) (h2 : String) :
    (return_session p h sess).active h2 = p.active h2 := by
  rw [return_session]
  split <;> rfl

theorem applyOp_max (p : PoolState) (op : PoolOp) :
    (applyOp p op).max_connections = p.max_connections := by
  cases op with
  | acq h1 =>
    show ((get_session p h1).2).max_connections = p.max_connections
    cases hp : p.pools h1 with
    | nil =>
      simp only [get_session, hp]
      split <;> rfl
    | cons s0 rest =>
      simp only [get_session, hp]
      split
      · rfl
      · split <;> rfl
  | rel h1 sess =>
    show (return_session p h1 sess).max_connections = p.max_connections
    rw [return_session]
    split <;> rfl

theorem get_session_active_le (p : PoolState) (h h2 : String) :
    p.active h2 ≤ ((get_session p h).2).active h2 := by
  cases hp : p.pools h with
  | nil =>
    simp only [get_session, hp]
    split
    · simp only [updf]
      split
      · next heq => rw [heq]; exact Nat.le_succ _
      · exact le_refl _
    · exact le_refl _
  | cons s0 rest =>
    simp only [get_session, hp]
    split
    · exact le_refl _
    · split
      · simp only [updf]
        split
        · next heq => rw [heq]; exact Nat.le_succ _
        · exact le_refl _
      · exact le_refl _

theorem runOps_active_le (p : PoolState) (ops : List PoolOp) (h : String) :
    p.active h ≤ (runOps p ops).active h := by
  induction ops generalizing p with
  | nil => exact le_refl _
  | cons op rest ih =>
    simp only [runOps, List.foldl] at *
    refine le_trans ?_ (ih (applyOp p op))
    cases op with
    | acq h1 => exact get_session_active_le p h1 h
    | rel h1 sess => exact (return_session_active p h1 sess h).symm.le

theorem return_session_unpooled (p : PoolState) (h : String) (sess : Sess)
    (hno : sess.hasClosedAttr = false) : return_session p h sess = p := by
  simp [return_session, hno]

theorem get_session_source (p : PoolState) (h : String) (sess : Sess) (p2 : PoolState)
    (hg : get_session p h = (some sess, p2)) : sess ∈ p.pools h ∨ sess = new_session := by
  cases hp : p.pools h with
  | nil =>
    simp only [get_session, hp] at hg
    split at hg
    · simp only [Prod.mk.injEq, Option.some.injEq] at hg
      exact Or.inr hg.1.symm
    · simp at hg
  | cons s0 rest =>
    simp only [get_session, hp] at hg
    split at hg
    · simp only [Prod.mk.injEq, Option.some.injEq] at hg
      rw [← hg.1]
      exact Or.inl (List.mem_cons_self _ _)
    · split at hg
      · simp only [Prod.mk.injEq, Option.some.injEq] at hg
        exact Or.inr hg.1.symm
      · simp at hg

theorem get_session_frame (p : PoolState) (h1 h : String) (hh : ¬h = h1) :
    ((get_session p h1).2).pools h = p.pools h ∧
    ((get_session p h1).2).active h = p.active h := by
  cases hp : p.pools h1 with
  | nil =>
    simp only [get_session, hp]
    split
    · exact ⟨rfl, by simp only [updf, if_neg hh]⟩
    · exact ⟨rfl, rfl⟩
  | cons s0 rest =>
    simp only [get_session, hp]
    split
    · exact ⟨by simp only [updf, if_neg hh], rfl⟩
    · split
      · exact ⟨by simp only [updf, if_neg hh], by simp only [updf, if_neg hh]⟩
      · exact ⟨by simp only [updf, if_neg hh], rfl⟩

theorem applyOp_saturated (p : PoolState) (op : PoolOp) (h : String)
    (hok : relOkB op = true)
    (hpool : p.pools h = []) (hact : p.active h = p.max_connections) :
    (applyOp p op).pools h = [] ∧ (applyOp p op).active h = (applyOp p op).max_connections := by
  rw [applyOp_max p op]
  cases op with
  | rel h1 sess =>
    have hno : sess.hasClosedAttr = false := by
      simpa [relOkB] using hok
    show (return_session p h1 sess).pools h = [] ∧
      (return_session p h1 sess).active h = p.max_connections
    rw [return_session_unpooled p h1 sess hno]
    exact ⟨hpool, hact⟩
  | acq h1 =>
    by_cases hh : h = h1
    · subst hh
      show ((get_session p h).2).pools h = [] ∧ ((get_session p h).2).active h = p.max_connections
      simp only [get_session, hpool, hact]
      rw [if_neg (lt_irrefl _)]
      exact ⟨hpool, hact⟩
    · have hframe := get_session_frame p h1 h hh
      show ((get_session p h1).2).pools h = [] ∧
        ((get_session p h1).2).active h = p.max_connections
      rw [hframe.1, hframe.2]
      exact ⟨hpool, hact⟩

theorem runOps_saturated (p : PoolState) (ops : List PoolOp) (h : String)
    (hok : ops.all relOkB = true)
    (hpool : p.pools h = []) (hact : p.active h = p.max_connections) :
    (runOps p ops).pools h = [] ∧
    (runOps p ops).active h = (runOps p ops).max_connections := by
  induction ops generalizing p with
  | nil => exact ⟨hpool, hact⟩
  | cons op rest ih =>
    simp only [List.all_cons, Bool.and_eq_true] at hok
    have hstep := applyOp_saturated p op h hok.1 hpool hact
    simp only [runOps, List.foldl] at *
    exact ih (applyOp p op) hok.2 hstep.1 hstep.2

theorem get_session_none_of_saturated (p : PoolState) (h : String)
    (hpool : p.pools h = []) (hact : p.active h = p.max_connections) :
    (get_session p h).1 = Option.none := by
  simp only [get_session, hpool, hact]
  rw [if_neg (lt_irrefl _)]

/-- Claim C9: (1) `return_session` never changes (in particular never
decrements) any active counter, and no operation sequence decreases one;
(2) `return_session` pools nothing lacking a `_closed` attribute — for
such sessions it is the identity (the session is closed, not idled);
(3) every session `get_session` hands out comes from the idle list or is
the fresh `new_session`, which carries no `_closed` attribute; (4) hence
once a host has no idle sessions and its active counter has reached
`max_connections`, any sequence of `get_session` calls and
`return_session` calls handing back attribute-less sessions leaves every
later `get_session` for that host returning `None`. -/
theorem c9_pool_accounting :
    (∀ (p : PoolState) (h : String) (sess : Sess) (h2 : String),
      (return_session p h sess).active h2 = p.active h2) ∧
    (∀ (p : PoolState) (ops : List PoolOp) (h : String),
      p.active h ≤ (runOps p ops).active h) ∧
    (∀ (p : PoolState) (h : String) (sess : Sess),
      sess.hasClosedAttr = false → return_session p h sess = p) ∧
    (∀ (p : PoolState) (h : String) (sess : Sess) (p2 : PoolState),
      get_session p h = (some sess, p2) → sess ∈ p.pools h ∨ sess = new_session) ∧
    new_session.hasClosedAttr = false ∧
    (∀ (p : PoolState) (ops : List PoolOp) (h : String),
      ops.all relOkB = true → p.pools h = [] → p.active h = p.max_connections →
      (get_session (runOps p ops) h).1 = Option.none) :=
  ⟨return_session_active, runOps_active_le, return_session_unpooled, get_session_source,
   rfl,
   fun p ops h hok hpool hact =>
     get_session_none_of_saturated _ _ (runOps_saturated p ops h hok hpool hact).1
       (runOps_saturated p ops h hok hpool hact).2⟩

/-- Witness for `c9_pool_accounting`: a saturated single-session pool
stays unusable across a release of the attribute-less session and a
further acquire attempt. -/
theorem c9_pool_accounting_witness :
    (get_session (runOps ⟨1, fun _ => [], fun _ => 1⟩
        [PoolOp.rel "h" new_session, PoolOp.acq "h"]) "h").1 = Option.none :=
  c9_pool_accounting.2.2.2.2.2 ⟨1, fun _ => [], fun _ => 1⟩
    [PoolOp.rel "h" new_session, PoolOp.acq "h"] "h" (by decide) rfl rfl

/-! ## Eviction-loop and LRU lemmas -/

theorem evict_loop_of_lt (m : ℕ) (ts : String → Option ℚ) (l : List (String × Response))
    (h : l.length < m) : evict_loop m ts l = (l, ts) := by
  cases l with
  | nil => rfl
  | cons e rest =>
    simp only [evict_loop]
    rw [if_neg (by simp only [List.length_cons] at h; omega)]

theorem evict_loop_at_cap (m : ℕ) (ts : String → Option ℚ) (e : String × Response)
    (rest : List (String × Response)) (h : (e :: rest).length = m) :
    evict_loop m ts (e :: rest) = (rest, updf ts e.1 Option.none) := by
  simp only [List.length_cons] at h
  simp only [evict_loop]
  rw [if_pos (by omega)]
  exact evict_loop_of_lt m _ rest (by omega)

theorem set_fresh (s : Settings) (st : MCState) (now : ℚ) (url method : String)
    (r : Response) (params : PyParams) (headers : PyHeaders)
    (hmem : s.use_memory_cache = true)
    (hlen : st.cache.length < st.max_size)
    (hfresh : List.lookup (generate_key url method params headers) st.cache = Option.none) :
    RequestMemoryCache.set s st now url method r params headers
      = { st with cache := st.cache ++ [(generate_key url method params headers, r)],
                  timestamps := updf st.timestamps (generate_key url method params headers)
                    (some now) } := by
  rw [RequestMemoryCache.set, hmem]
  simp only [Bool.not_true, Bool.false_eq_true, if_false]
  rw [evict_loop_of_lt _ _ _ hlen, hfresh]

theorem lookup_none_tail (k : String) (e : String × Response) (l : List (String × Response))
    (h : List.lookup k (e :: l) = Option.none) : List.lookup k l = Option.none := by
  obtain ⟨a, b⟩ := e
  by_cases hk : k = a
  · subst hk
    rw [lookup_cons_self] at h
    exact absurd h (by simp)
  · rwa [lookup_cons_ne k a b l hk] at h

theorem set_evict (s : Settings) (st : MCState) (now : ℚ) (url method : String)
    (r : Response) (params : PyParams) (headers : PyHeaders)
    (e : String × Response) (restL : List (String × Response))
    (hmem : s.use_memory_cache = true)
    (hc : st.cache = e :: restL)
    (hlen : st.cache.length = st.max_size)
    (hfresh : List.lookup (generate_key url method params headers) st.cache = Option.none) :
    RequestMemoryCache.set s st now url method r params headers
      = { st with cache := restL ++ [(generate_key url method params headers, r)],
                  timestamps := updf (updf st.timestamps e.1 Option.none)
                    (generate_key url method params headers) (some now) } := by
  rw [RequestMemoryCache.set, hmem]
  simp only [Bool.not_true, Bool.false_eq_true, if_false]
  rw [hc] at hlen hfresh ⊢
  rw [evict_loop_at_cap _ _ _ _ hlen, lookup_none_tail _ _ _ hfresh]

theorem lookup_append_none (k : String) (l1 l2 : List (String × Response))
    (h1 : List.lookup k l1 = Option.none) (h2 : List.lookup k l2 = Option.none) :
    List.lookup k (l1 ++ l2) = Option.none := by
  induction l1 with
  | nil => simpa using h2
  | cons e rest ih =>
    obtain ⟨a, b⟩ := e
    by_cases hk : k = a
    · subst hk
      rw [lookup_cons_self] at h1
      exact absurd h1 (by simp)
    · rw [lookup_cons_ne k a b rest hk] at h1
      rw [List.cons_append, lookup_cons_ne k a b _ hk]
      exact ih h1

theorem get_hit_state (s : Settings) (st : MCState) (now : ℚ) (url method : String)
    (params : PyParams) (headers : PyHeaders) (ttl : Option ℚ) (t0 : ℚ) (v : Response)
    (hmem : s.use_memory_cache = true)
    (hv : List.lookup (generate_key url method params headers) st.cache = some v)
    (ht : st.timestamps (generate_key url method params headers) = some t0)
    (hfresh : ¬(now - t0 > max_age ttl st.default_ttl)) :
    RequestMemoryCache.get s st now url method params headers ttl
      = (some v,
         { st with cache :=
            (st.cache.filter fun e => !(e.1 == generate_key url method params headers))
              ++ [(generate_key url method params headers, v)] }) := by
  rw [RequestMemoryCache.get, hmem]
  simp only [Bool.not_true, Bool.false_eq_true, if_false]
  rw [hv, ht]
  simp only [if_neg hfresh]
  rw [move_to_end, hv]

theorem lookup_map_keyOf (us : List String) (r : Response) (u : String) (hu : u ∈ us) :
    List.lookup (keyOf u) (us.map fun x => (keyOf x, r)) = some r := by
  induction us with
  | nil => cases hu
  | cons a rest ih =>
    rcases List.mem_cons.mp hu with h | h
    · subst h
      simp only [List.map_cons]
      exact lookup_cons_self _ _ _
    · by_cases hk : keyOf u = keyOf a
      · simp only [List.map_cons]
        rw [hk]
        exact lookup_cons_self _ _ _
      · simp only [List.map_cons]
        rw [lookup_cons_ne _ _ _ _ hk]
        exact ih h

theorem filter_out_eq_eraseIdx (l : List (String × Response)) (i : ℕ) (hi : i < l.length)
    (hnd : (l.map Prod.fst).Nodup) :
    (l.filter fun e => !(e.1 == (l.get ⟨i, hi⟩).1)) = l.eraseIdx i := by
  induction l generalizing i with
  | nil => simp at hi
  | cons e rest ih =>
    simp only [List.map_cons, List.nodup_cons] at hnd
    cases i with
    | zero =>
      simp only [List.get, List.eraseIdx]
      rw [List.filter_cons]
      have he : (!(e.1 == e.1)) = false := by simp
      rw [he]
      simp only [Bool.false_eq_true, if_false]
      apply List.filter_eq_self.mpr
      intro a ha
      have : a.1 ≠ e.1 := by
        intro hcon
        exact hnd.1 (hcon ▸ List.mem_map_of_mem Prod.fst ha)
      simp [this]
    | succ j =>
      have hj : j < rest.length := by
        simpa [List.length_cons, Nat.succ_lt_succ_iff] using hi
      simp only [List.get, List.eraseIdx]
      rw [List.filter_cons]
      have hkey : ((rest.get ⟨j, hj⟩).1) ∈ rest.map Prod.fst :=
        List.mem_map_of_mem Prod.fst (rest.get_mem _ _)
      have he : (!(e.1 == (rest.get ⟨j, hj⟩).1)) = true := by
        simp only [Bool.not_eq_true', beq_eq_false_iff_ne]
        intro hcon
        exact hnd.1 (hcon ▸ hkey)
      rw [he]
      simp only [if_true]
      rw [ih j hj hnd.2]

theorem foldSet_spec (s : Settings) (r : Response) (us : List String) (st : MCState)
    (hmem : s.use_memory_cache = true)
    (hnd : (us.map keyOf).Nodup)
    (hfresh : ∀ u ∈ us, List.lookup (keyOf u) st.cache = Option.none)
    (hlen : st.cache.length + us.length ≤ st.max_size) :
    (foldSet s r us st).cache = st.cache ++ us.map (fun u => (keyOf u, r)) ∧
    (∀ k, k ∉ us.map keyOf → (foldSet s r us st).timestamps k = st.timestamps k) ∧
    (∀ u ∈ us, (foldSet s r us st).timestamps (keyOf u) = some 0) ∧
    (foldSet s r us st).max_size = st.max_size ∧
    (foldSet s r us st).default_ttl = st.default_ttl := by
  induction us generalizing st with
  | nil =>
    exact ⟨by simp [foldSet], fun k _ => rfl, fun u hu => absurd hu (List.not_mem_nil u),
      rfl, rfl⟩
  | cons u rest ih =>
    simp only [List.map_cons, List.nodup_cons] at hnd
    have hlt : st.cache.length < st.max_size := by
      simp only [List.length_cons] at hlen
      omega
    have hset : RequestMemoryCache.set s st 0 u "GET" r PyParams.none Option.none
        = { st with cache := st.cache ++ [(keyOf u, r)],
                    timestamps := updf st.timestamps (keyOf u) (some 0) } :=
      set_fresh s st 0 u "GET" r PyParams.none Option.none hmem hlt
        (hfresh u (List.mem_cons_self u rest))
    have hfold : foldSet s r (u :: rest) st
        = foldSet s r rest (RequestMemoryCache.set s st 0 u "GET" r PyParams.none Option.none) := by
      simp only [foldSet, List.foldl]
    rw [hfold, hset]
    set st2 : MCState :=
      { st with cache := st.cache ++ [(keyOf u, r)],
                timestamps := updf st.timestamps (keyOf u) (some 0) } with hst2
    have hfresh2 : ∀ u2 ∈ rest, List.lookup (keyOf u2) st2.cache = Option.none := by
      intro u2 hu2
      apply lookup_append_none
      · exact hfresh u2 (List.mem_cons_of_mem u hu2)
      · have hne : keyOf u2 ≠ keyOf u := by
          intro hcon
          exact hnd.1 (hcon ▸ List.mem_map_of_mem keyOf hu2)
        rw [lookup_cons_ne _ _ _ _ hne]
        rfl
    have hlen2 : st2.cache.length + rest.length ≤ st2.max_size := by
      show (st.cache ++ [(keyOf u, r)]).length + rest.length ≤ st.max_size
      simp only [List.length_append, List.length_singleton]
      simp only [List.length_cons] at hlen
      omega
    obtain ⟨ihc, ihp, iht, ihm, ihd⟩ := ih st2 hnd.2 hfresh2 hlen2
    refine ⟨?_, ?_, ?_, ihm, ihd⟩
    · rw [ihc]
      show (st.cache ++ [(keyOf u, r)]) ++ List.map (fun x => (keyOf x, r)) rest
        = st.cache ++ List.map (fun x => (keyOf x, r)) (u :: rest)
      rw [List.append_assoc, List.singleton_append, List.map_cons]
    · intro k hk
      simp only [List.map_cons, List.mem_cons, not_or] at hk
      rw [ihp k hk.2]
      show updf st.timestamps (keyOf u) (some 0) k = st.timestamps k
      simp only [updf, if_neg hk.1]
    · intro u2 hu2
      rcases List.mem_cons.mp hu2 with h | h
      · subst h
        have hnotin : keyOf u2 ∉ rest.map keyOf := hnd.1
        rw [ihp _ hnotin]
        show updf st.timestamps (keyOf u2) (some 0) (keyOf u2) = some 0
        simp [updf]
      · exact iht u2 h

/-- Claim C5 as amended (capacity at least 2; at capacity exactly 1 the
accessed entry is necessarily the one evicted — see the counterexample):
filling an empty cache of capacity `N = us.length ≥ 2` with `N` distinct
fingerprints, then touching the `i`-th via `get` (a hit, first conjunct),
then inserting an `(N+1)`-th distinct fingerprint, evicts exactly one
entry — the head of the post-access LRU order — leaving the final cache
equal to that order minus its head plus the new entry (second conjunct);
in particular the accessed entry survives (third conjunct) and exactly
one entry was evicted (fourth conjunct). -/
theorem c5_lru_eviction_protected (s : Settings) (st0 : MCState) (us : List String)
    (i : ℕ) (w : String) (r r2 : Response)
    (hmem : s.use_memory_cache = true)
    (hcache0 : st0.cache = [])
    (hcap : st0.max_size = us.length)
    (httl : 0 ≤ st0.default_ttl)
    (hN : 2 ≤ us.length)
    (hi : i < us.length)
    (hnd : (us.map keyOf).Nodup)
    (hw : keyOf w ∉ us.map keyOf) :
    (RequestMemoryCache.get s (foldSet s r us st0) 0 (us.getD i "") "GET"
        PyParams.none Option.none Option.none).1 = some r ∧
    (RequestMemoryCache.set s
        (RequestMemoryCache.get s (foldSet s r us st0) 0 (us.getD i "") "GET"
          PyParams.none Option.none Option.none).2
        0 w "GET" r2 PyParams.none Option.none).cache
      = ((us.map fun u => (keyOf u, r)).eraseIdx i).tail
          ++ [(keyOf (us.getD i ""), r), (keyOf w, r2)] ∧
    keyOf (us.getD i "") ∈
      ((RequestMemoryCache.set s
        (RequestMemoryCache.get s (foldSet s r us st0) 0 (us.getD i "") "GET"
          PyParams.none Option.none Option.none).2
        0 w "GET" r2 PyParams.none Option.none).cache).map Prod.fst ∧
    (RequestMemoryCache.set s
        (RequestMemoryCache.get s (foldSet s r us st0) 0 (us.getD i "") "GET"
          PyParams.none Option.none Option.none).2
        0 w "GET" r2 PyParams.none Option.none).cache.length = us.length := by
  have hgetd : us.getD i "" = us.get ⟨i, hi⟩ := List.getD_eq_getElem us "" hi
  rw [hgetd]
  obtain ⟨hc1, hp1, ht1, hm1, hd1⟩ := foldSet_spec s r us st0 hmem hnd
    (by intro u hu; rw [hcache0]; rfl)
    (by rw [hcache0]; simp [hcap])
  have hcache : (foldSet s r us st0).cache = us.map (fun u => (keyOf u, r)) := by
    rw [hc1, hcache0, List.nil_append]
  have hiL : i < (us.map fun u => (keyOf u, r)).length := by simpa using hi
  have hmem_i : us.get ⟨i, hi⟩ ∈ us := us.get_mem i hi
  have hv : List.lookup (keyOf (us.get ⟨i, hi⟩)) (foldSet s r us st0).cache = some r := by
    rw [hcache]
    exact lookup_map_keyOf us r _ hmem_i
  have ht : (foldSet s r us st0).timestamps (keyOf (us.get ⟨i, hi⟩)) = some 0 :=
    ht1 _ hmem_i
  have hno : ¬((0:ℚ) - 0 > max_age Option.none (foldSet s r us st0).default_ttl) := by
    rw [show max_age Option.none (foldSet s r us st0).default_ttl
        = (foldSet s r us st0).default_ttl from rfl, hd1]
    simpa using not_lt.mpr httl
  have hgs : RequestMemoryCache.get s (foldSet s r us st0) 0 (us.get ⟨i, hi⟩) "GET"
      PyParams.none Option.none Option.none
      = (some r,
         { foldSet s r us st0 with cache :=
            ((foldSet s r us st0).cache.filter
              fun e => !(e.1 == keyOf (us.get ⟨i, hi⟩)))
              ++ [(keyOf (us.get ⟨i, hi⟩), r)] }) :=
    get_hit_state s (foldSet s r us st0) 0 (us.get ⟨i, hi⟩) "GET"
      PyParams.none Option.none Option.none 0 r hmem hv ht hno
  have hgi : ((us.map fun u => (keyOf u, r)).get ⟨i, hiL⟩).1 = keyOf (us.get ⟨i, hi⟩) := by
    simp
  have hfilter : ((foldSet s r us st0).cache.filter
      fun e => !(e.1 == keyOf (us.get ⟨i, hi⟩)))
      = (us.map fun u => (keyOf u, r)).eraseIdx i := by
    rw [hcache, ← hgi]
    refine filter_out_eq_eraseIdx _ i hiL ?_
    have hcomp : ((us.map fun u => (keyOf u, r)).map Prod.fst) = us.map keyOf := by
      rw [List.map_map]
      rfl
    rw [hcomp]
    exact hnd
  rw [hgs]
  refine ⟨rfl, ?_⟩
  have hlenE : ((us.map fun u => (keyOf u, r)).eraseIdx i).length + 1 = us.length := by
    rw [List.length_eraseIdx_add_one hiL]
    simp
  cases hE : (us.map fun u => (keyOf u, r)).eraseIdx i with
  | nil =>
    exfalso
    rw [hE] at hlenE
    simp at hlenE
    omega
  | cons e0 restE =>
    have hkey_i_mem : keyOf (us.get ⟨i, hi⟩) ∈ us.map keyOf :=
      List.mem_map_of_mem keyOf hmem_i
    have hfreshW : List.lookup (keyOf w)
        (((foldSet s r us st0).cache.filter
          fun e => !(e.1 == keyOf (us.get ⟨i, hi⟩)))
          ++ [(keyOf (us.get ⟨i, hi⟩), r)]) = Option.none := by
      rw [hfilter]
      apply lookup_append_none
      · apply lookup_none_of_not_mem
        intro hcon
        apply hw
        have hsub : (((us.map fun u => (keyOf u, r)).eraseIdx i).map Prod.fst).Subset
            (((us.map fun u => (keyOf u, r))).map Prod.fst) :=
          ((List.eraseIdx_sublist _ i).map Prod.fst).subset
        have := hsub hcon
        rw [List.map_map] at this
        exact this
      · have hne : keyOf w ≠ keyOf (us.get ⟨i, hi⟩) := by
          intro hcon
          exact hw (hcon ▸ hkey_i_mem)
        rw [lookup_cons_ne _ _ _ _ hne]
        rfl
    have hlenF : (((foldSet s r us st0).cache.filter
        fun e => !(e.1 == keyOf (us.get ⟨i, hi⟩)))
        ++ [(keyOf (us.get ⟨i, hi⟩), r)]).length
        = (foldSet s r us st0).max_size := by
      rw [hfilter, List.length_append, List.length_singleton, hlenE, hm1, hcap]
    have hcons : ((foldSet s r us st0).cache.filter
        fun e => !(e.1 == keyOf (us.get ⟨i, hi⟩)))
        ++ [(keyOf (us.get ⟨i, hi⟩), r)]
        = e0 :: (restE ++ [(keyOf (us.get ⟨i, hi⟩), r)]) := by
      rw [hfilter, hE, List.cons_append]
    have hsetF : RequestMemoryCache.set s
        { foldSet s r us st0 with cache :=
          ((foldSet s r us st0).cache.filter
            fun e => !(e.1 == keyOf (us.get ⟨i, hi⟩)))
            ++ [(keyOf (us.get ⟨i, hi⟩), r)] }
        0 w "GET" r2 PyParams.none Option.none
        = { foldSet s r us st0 with
            cache := (restE ++ [(keyOf (us.get ⟨i, hi⟩), r)]) ++ [(keyOf w, r2)],
            timestamps := updf (updf (foldSet s r us st0).timestamps e0.1 Option.none)
              (keyOf w) (some 0) } :=
      set_evict s _ 0 w "GET" r2 PyParams.none Option.none e0
        (restE ++ [(keyOf (us.get ⟨i, hi⟩), r)]) hmem hcons hlenF hfreshW
    rw [hsetF]
    have hlenRest : restE.length + 2 = us.length := by
      rw [hE] at hlenE
      simp only [List.length_cons] at hlenE
      omega
    refine ⟨?_, ?_, ?_⟩
    · show (restE ++ [(keyOf (us.get ⟨i, hi⟩), r)]) ++ [(keyOf w, r2)]
        = (e0 :: restE).tail ++ [(keyOf (us.get ⟨i, hi⟩), r), (keyOf w, r2)]
      simp [List.append_assoc]
    · show keyOf (us.get ⟨i, hi⟩) ∈
        ((restE ++ [(keyOf (us.get ⟨i, hi⟩), r)]) ++ [(keyOf w, r2)]).map Prod.fst
      simp
    · show ((restE ++ [(keyOf (us.get ⟨i, hi⟩), r)]) ++ [(keyOf w, r2)]).length = us.length
      simp only [List.length_append, List.length_singleton]
      omega

/-- Claim C5 counterexample (the claim as stated, with no bound on the
capacity, fails at capacity `N = 1`): insert `a`, `get` `a` — a hit that
promotes it to most recently used (first conjunct) — then insert the
distinct fingerprint `b`; the accessed entry `a` is evicted all the same
(second conjunct), because with capacity 1 the promoted entry is also the
least recently used one. -/
theorem c5_capacity_one_counterexample :
    (RequestMemoryCache.get ⟨true, true, true⟩
        (RequestMemoryCache.set ⟨true, true, true⟩ ⟨1, 300, [], fun _ => Option.none⟩
          0 "a" "GET" r200 PyParams.none Option.none)
        0 "a" "GET" PyParams.none Option.none Option.none).1 = some r200 ∧
    List.lookup (generate_key "a" "GET" PyParams.none Option.none)
      (RequestMemoryCache.set ⟨true, true, true⟩
        (RequestMemoryCache.get ⟨true, true, true⟩
          (RequestMemoryCache.set ⟨true, true, true⟩ ⟨1, 300, [], fun _ => Option.none⟩
            0 "a" "GET" r200 PyParams.none Option.none)
          0 "a" "GET" PyParams.none Option.none Option.none).2
        0 "b" "GET" ⟨200, "B"⟩ PyParams.none Option.none).cache = Option.none := by
  with_unfolding_all decide

/-- Witness for `c5_lru_eviction_protected`: capacity 2, fill with `a`
then `b`, `get` `a`, insert `c`; `b` is evicted, `a` and `c` survive. -/
theorem c5_lru_eviction_protected_witness :
    (RequestMemoryCache.get ⟨true, true, true⟩
        (foldSet ⟨true, true, true⟩ r200 ["a", "b"] ⟨2, 300, [], fun _ => Option.none⟩)
        0 (["a", "b"].getD 0 "") "GET" PyParams.none Option.none Option.none).1 = some r200 ∧
    (RequestMemoryCache.set ⟨true, true, true⟩
        (RequestMemoryCache.get ⟨true, true, true⟩
          (foldSet ⟨true, true, true⟩ r200 ["a", "b"] ⟨2, 300, [], fun _ => Option.none⟩)
          0 (["a", "b"].getD 0 "") "GET" PyParams.none Option.none Option.none).2
        0 "c" "GET" ⟨200, "C"⟩ PyParams.none Option.none).cache
      = ((["a", "b"].map fun u => (keyOf u, r200)).eraseIdx 0).tail
          ++ [(keyOf (["a", "b"].getD 0 ""), r200), (keyOf "c", ⟨200, "C"⟩)] ∧
    keyOf (["a", "b"].getD 0 "") ∈
      ((RequestMemoryCache.set ⟨true, true, true⟩
        (RequestMemoryCache.get ⟨true, true, true⟩
          (foldSet ⟨true, true, true⟩ r200 ["a", "b"] ⟨2, 300, [], fun _ => Option.none⟩)
          0 (["a", "b"].getD 0 "") "GET" PyParams.none Option.none Option.none).2
        0 "c" "GET" ⟨200, "C"⟩ PyParams.none Option.none).cache).map Prod.fst ∧
    (RequestMemoryCache.set ⟨true, true, true⟩
        (RequestMemoryCache.get ⟨true, true, true⟩
          (foldSet ⟨true, true, true⟩ r200 ["a", "b"] ⟨2, 300, [], fun _ => Option.none⟩)
          0 (["a", "b"].getD 0 "") "GET" PyParams.none Option.none Option.none).2
        0 "c" "GET" ⟨200, "C"⟩ PyParams.none Option.none).cache.length = ["a", "b"].length :=
  c5_lru_eviction_protected ⟨true, true, true⟩ ⟨2, 300, [], fun _ => Option.none⟩
    ["a", "b"] 0 "c" r200 ⟨200, "C"⟩ rfl rfl rfl
    (by norm_num) (by norm_num) (by norm_num)
    (by with_unfolding_all decide) (by with_unfolding_all decide)
